import Mathlib

/-!
Shallow embedding of the podbriefing episode pipeline.

Text values are modelled as `String` where they are opaque payloads
(database fields) and as `List Char` where character-level structure
matters (filenames, prompt assembly, error markers).  Python exceptions
are modelled as explicit error values; the mutable database session is
modelled by explicit state passing over a `Db` record.
-/

namespace PodBriefing

/-! ## Data model (src/src/db/models.py) -/

/-- The `ProcessingStatus` enum from models.py. -/
inductive ProcessingStatus where
  | PENDING
  | DOWNLOADING
  | ANALYZING
  | COMPLETED
  | FAILED
deriving DecidableEq, Repr

/-- The `AnalysisType` enum from models.py. -/
inductive AnalysisType where
  | BRIEF
  | LEAD
deriving DecidableEq, Repr, Fintype

/-- The members of the `AnalysisType` enum, in declaration order; `len(models.AnalysisType)`
is `AnalysisType.all.length`. -/
def AnalysisType.all : List AnalysisType := [.BRIEF, .LEAD]

/-- Position of a status along the documented forward chain
PENDING -> DOWNLOADING -> ANALYZING -> COMPLETED; FAILED sits outside the chain
and is given the largest rank. -/
def statusRank : ProcessingStatus → Nat
  | .PENDING => 0
  | .DOWNLOADING => 1
  | .ANALYZING => 2
  | .COMPLETED => 3
  | .FAILED => 4

/-- Row of the `episodes` table. -/
structure Episode where
  id : Nat
  rss_url : String
  podcast_name : String
  episode_title : String
  audio_path : Option String
  status : ProcessingStatus
deriving DecidableEq, Repr

/-- Row of the `analyses` table. -/
structure Analysis where
  id : Nat
  episode_id : Nat
  analysis_type : AnalysisType
  result_text : String
deriving DecidableEq, Repr

/-- The backing store: the two tables.  Autoincrement primary keys are modelled
by assigning the current table length on insert (rows are never deleted). -/
structure Db where
  episodes : List Episode
  analyses : List Analysis
deriving DecidableEq, Repr

/-! ## Repository (src/src/db/crud.py) -/

/-- Model of `create_episode`: insert a new episode row; `status` takes the column
default `PENDING`, `audio_path` is initially NULL. -/
def create_episode (db : Db) (rss_url podcast_name episode_title : String) :
    Episode × Db :=
  let episode : Episode :=
    { id := db.episodes.length
      rss_url := rss_url
      podcast_name := podcast_name
      episode_title := episode_title
      audio_path := none
      status := .PENDING }
  (episode, { db with episodes := db.episodes ++ [episode] })

/-- Model of `get_episode`: first episode row whose primary key matches. -/
def get_episode (db : Db) (episode_id : Nat) : Option Episode :=
  db.episodes.find? (fun e => e.id == episode_id)

/-- Model of `update_episode_status`: if the episode exists, set its status column and
return the refreshed row; otherwise a no-op returning None. -/
def update_episode_status (db : Db) (episode_id : Nat)
    (status : ProcessingStatus) : Option Episode × Db :=
  match get_episode db episode_id with
  | none => (none, db)
  | some _ =>
    let db' : Db :=
      { db with episodes :=
          db.episodes.map (fun e =>
            if e.id == episode_id then { e with status := status } else e) }
    (get_episode db' episode_id, db')

/-- Model of `update_episode_audio_path`: same shape as `update_episode_status` for the
`audio_path` column. -/
def update_episode_audio_path (db : Db) (episode_id : Nat)
    (audio_path : String) : Option Episode × Db :=
  match get_episode db episode_id with
  | none => (none, db)
  | some _ =>
    let db' : Db :=
      { db with episodes :=
          db.episodes.map (fun e =>
            if e.id == episode_id then { e with audio_path := some audio_path } else e) }
    (get_episode db' episode_id, db')

/-- Model of `get_episode_analyses`: all analyses rows for an episode. -/
def get_episode_analyses (db : Db) (episode_id : Nat) : List Analysis :=
  db.analyses.filter (fun a => a.episode_id == episode_id)

/-- Model of `create_analysis`: insert the analysis row, then re-read the episode's
analyses; when `len(set(a.analysis_type for a in analyses)) == len(models.AnalysisType)`
also set the episode status to COMPLETED. -/
def create_analysis (db : Db) (episode_id : Nat) (result_text : String)
    (analysis_type : AnalysisType) : Analysis × Db :=
  let analysis : Analysis :=
    { id := db.analyses.length
      episode_id := episode_id
      analysis_type := analysis_type
      result_text := result_text }
  let db1 : Db := { db with analyses := db.analyses ++ [analysis] }
  let analyses := get_episode_analyses db1 episode_id
  let db2 : Db :=
    if ((analyses.map (·.analysis_type)).dedup).length = AnalysisType.all.length then
      (update_episode_status db1 episode_id .COMPLETED).2
    else db1
  (analysis, db2)

/-! ## Audio transcoder and analysis client (src/podcast_analyzer.py)

Text at this layer is modelled as `List Char`.  The filesystem is the list of
existing paths; pydub and the Gemini oracle are abstract environments whose
calls either return a value or raise (an error message). -/

/-- An in-memory `pydub.AudioSegment` value; its audio content is abstract. -/
structure AudioSeg where
  channels : Nat
  frame_rate : Nat
deriving DecidableEq, Repr

/-- A Python exception value as `transform_audio` can raise it: either a
`FileNotFoundError` or a generic `Exception`, each carrying `str(e)`. -/
inductive PyErr where
  | fileNotFoundError (msg : List Char)
  | exception (msg : List Char)
deriving DecidableEq, Repr

/-- The Python class name of the exception, what `except FileNotFoundError` /
`isinstance` can observe. -/
def pyErrClass : PyErr → List Char
  | .fileNotFoundError _ => "FileNotFoundError".toList
  | .exception _ => "Exception".toList

/-- Value of `str(e)` for the exception. -/
def pyErrStr : PyErr → List Char
  | .fileNotFoundError msg => msg
  | .exception msg => msg

/-- Behaviour of the external audio library and of `tempfile` for one call:
each operation either succeeds or raises with a message.  `tmp_name` is the
path `tempfile.NamedTemporaryFile` will allocate. -/
structure AudioEnv where
  from_file : List Char → Except (List Char) AudioSeg
  set_channels : AudioSeg → Nat → Except (List Char) AudioSeg
  set_frame_rate : AudioSeg → Nat → Except (List Char) AudioSeg
  export_audio : AudioSeg → List Char → Except (List Char) Unit
  tmp_name : List Char

def failedLoadMsg : List Char := "Failed to load audio file: ".toList
def failedProcessMsg : List Char := "Failed to process audio: ".toList
def failedExportMsg : List Char := "Failed to export compressed audio: ".toList

/-- Model of `PodcastAnalyzer.transform_audio`: existence check, decode, mono + 16kHz
conversion, then creation of the temporary file (`delete=False`, so it exists
on disk from that point on) and mp3 export.  Returns the produced temporary
path, or the raised exception; the second component is the filesystem after
the call. -/
def transform_audio (env : AudioEnv) (fs : List (List Char))
    (audio_path : List Char) : Except PyErr (List Char) × List (List Char) :=
  if audio_path ∈ fs then
    match env.from_file audio_path with
    | .error e => (.error (.exception (failedLoadMsg ++ e)), fs)
    | .ok audio =>
      match env.set_channels audio 1 with
      | .error e => (.error (.exception (failedProcessMsg ++ e)), fs)
      | .ok audio =>
        match env.set_frame_rate audio 16000 with
        | .error e => (.error (.exception (failedProcessMsg ++ e)), fs)
        | .ok audio =>
          let fs' := fs ++ [env.tmp_name]
          match env.export_audio audio env.tmp_name with
          | .error e => (.error (.exception (failedExportMsg ++ e)), fs')
          | .ok _ => (.ok env.tmp_name, fs')
  else
    (.error (.fileNotFoundError ("Audio file not found: ".toList ++ audio_path)), fs)

def detailedErrorTag : List Char := "Error in detailed analysis: ".toList

/-- Model of `PodcastAnalyzer.analyze_audio_detailed`: transform the audio, send the
bytes to the oracle (`oracle` is the outcome of `model.generate_content` plus
the `.text` access), catch any exception into an "Error in detailed analysis:"
string, and in the `finally` block delete the temporary path when the
`transformed_audio_path` variable was assigned (i.e. when `transform_audio`
returned) and the file exists. -/
def analyze_audio_detailed (env : AudioEnv) (oracle : Except (List Char) (List Char))
    (fs : List (List Char)) (audio_path : List Char) :
    (List Char) × List (List Char) :=
  match transform_audio env fs audio_path with
  | (.error e, fs') =>
    -- the exception escapes transform_audio before transformed_audio_path is
    -- assigned, so the finally block performs no cleanup
    (detailedErrorTag ++ pyErrStr e, fs')
  | (.ok tmp, fs') =>
    let result :=
      match oracle with
      | .ok text => text
      | .error e => detailedErrorTag ++ e
    (result, fs'.filter (fun p => p ≠ tmp))

def newsletterErrorTag : List Char := "Error generating newsletter: ".toList

def combined_input_header : List Char :=
  "Here are the podcast episode analyses to include (and ONLY these):\n\n".toList

/-- One iteration of the `combined_input` loop body for a
(podcast_name, analysis) pair. -/
def newsletter_block (p : (List Char) × (List Char)) : List Char :=
  "# ".toList ++ p.1 ++ "\n\n".toList ++ p.2 ++ "\n\n---\n\n".toList

/-- The `combined_input` accumulation of `generate_cohesive_newsletter`:
start from the header and append one block per (name, analysis) pair in
insertion order. -/
def build_combined_input (podcast_analyses : List ((List Char) × (List Char))) :
    List Char :=
  podcast_analyses.foldl (fun acc p => acc ++ newsletter_block p)
    combined_input_header

/-- Model of `PodcastAnalyzer.generate_cohesive_newsletter`: send the combined input
(with the fixed newsletter instruction) to the oracle; on an exception return
an "Error generating newsletter:" string. -/
def generate_cohesive_newsletter
    (oracle : List Char → Except (List Char) (List Char))
    (podcast_analyses : List ((List Char) × (List Char))) : List Char :=
  match oracle (build_combined_input podcast_analyses) with
  | .ok text => text
  | .error e => newsletterErrorTag ++ e

/-! ## Filename handling (src/podcast_streamlit.py) -/

/-- The characters of the Python string `'<>:"/\\|?*'`. -/
def invalid_chars : List Char := "<>:\"/\\|?*".toList

/-- Predicate for Python's `strip('. ')` character set. -/
def isDotSpace (c : Char) : Bool := c == '.' || c == ' '

/-- Python `s.strip('. ')`: remove leading and trailing characters drawn from
the set consisting of the dot and the space. -/
def stripDotSpace (l : List Char) : List Char :=
  ((l.dropWhile isDotSpace).reverse.dropWhile isDotSpace).reverse

/-- Model of `sanitize_filename`: replace each character of `invalid_chars` by an
underscore (one `str.replace` pass per character, folded left as the Python
loop does), then `strip('. ')`. -/
def sanitize_filename (filename : List Char) : List Char :=
  stripDotSpace
    (invalid_chars.foldl
      (fun f c => f.map (fun x => if x = c then '_' else x)) filename)

/-- Decimal digit as a character. -/
def digitChar (n : Nat) : Char := Char.ofNat (48 + n)

/-- Fuel-driven decimal rendering of a natural number (most significant digit
first); `natToChars n` matches Python's `str(n)` for every `n`. -/
def natToCharsAux : Nat → Nat → List Char → List Char
  | 0, _, acc => acc
  | fuel + 1, n, acc =>
    if n < 10 then digitChar n :: acc
    else natToCharsAux fuel (n / 10) (digitChar (n % 10) :: acc)

def natToChars (n : Nat) : List Char := natToCharsAux (n + 1) n []

/-- Python zero-padded two-digit decimal formatting for the month/day fields. -/
def pad2 (n : Nat) : List Char :=
  if n < 10 then '0' :: natToChars n else natToChars n

/-- The fields of a feedparser entry that `create_filename` consumes.
`published_parsed` is `some (tm_year, tm_mon, tm_mday)` when the entry has a
parsed publish date and `none` when accessing it raises
AttributeError/TypeError. -/
structure FeedEntry where
  title : List Char
  published_parsed : Option (Nat × Nat × Nat)
deriving DecidableEq, Repr

/-- Model of `create_filename`: ISO date (from the entry, else `today`, the
`time.strftime("%Y-%m-%d")` fallback), underscore, sanitized title, truncation
of the base name to 200 characters, `.mp3` extension, joined under
`output_dir` (modelled as `output_dir ++ "/" ++ basename`, `os.path.join` for
a directory not ending in a separator). -/
def create_filename (entry : FeedEntry) (output_dir today : List Char) :
    List Char :=
  let date : List Char :=
    match entry.published_parsed with
    | some (y, m, d) => natToChars y ++ '-' :: (pad2 m ++ '-' :: pad2 d)
    | none => today
  let title := sanitize_filename entry.title
  let base_filename := date ++ '_' :: title
  let base_filename :=
    if base_filename.length > 200 then base_filename.take 200 else base_filename
  output_dir ++ '/' :: (base_filename ++ ".mp3".toList)

/-! ## Task layer (src/src/tasks/analyze.py) -/

/-- Model of `analyze_podcast`: the celery task.  `analyzer_run` is the outcome of
constructing `PodcastAnalyzer` and calling `analyze_audio_detailed` (an
`.error` is a raised exception).  A returned `.ok` is the task's return value;
`.error e` models `raise self.retry(exc=e)`, the path that triggers a
task-queue retry. -/
def analyze_podcast (fs : List (List Char))
    (analyzer_run : List Char → Except (List Char) (List Char))
    (audio_path : List Char) : Except (List Char) (List Char) :=
  if audio_path ∈ fs then
    match analyzer_run audio_path with
    | .ok result => .ok result
    | .error e => .error e
  else
    .ok ("Audio file not found: ".toList ++ audio_path)

/-! ## Helper lemmas: repository layer -/

/-- Updating the rows matching a primary key commutes with `find?` on that
key, provided the update preserves the key. -/
theorem find?_map_update (l : List Episode) (eid : Nat) (g : Episode → Episode)
    (hg : ∀ e, (g e).id = e.id) :
    (l.map (fun e => if e.id == eid then g e else e)).find? (fun e => e.id == eid) =
      (l.find? (fun e => e.id == eid)).map g := by
  induction l with
  | nil => rfl
  | cons a t ih =>
    by_cases h : a.id = eid
    · have hb : (a.id == eid) = true := by simpa using h
      have hgb : ((g a).id == eid) = true := by simpa [hg a] using h
      simp [List.find?_cons, h, hb, hgb]
    · have hb : (a.id == eid) = false := by simpa using h
      simp only [List.map_cons, hb, Bool.false_eq_true, if_false, List.find?_cons]
      exact ih

/-- Full behaviour of `update_episode_status` on an existing episode: the
returned record, the refreshed store, and the untouched analyses table. -/
theorem update_status_found_spec (db : Db) (eid : Nat) (s : ProcessingStatus)
    (ep : Episode) (h : get_episode db eid = some ep) :
    (update_episode_status db eid s).1 = some { ep with status := s } ∧
    get_episode (update_episode_status db eid s).2 eid = some { ep with status := s } ∧
    (update_episode_status db eid s).2.analyses = db.analyses := by
  have hmap := find?_map_update db.episodes eid
    (fun e => { e with status := s }) (fun _ => rfl)
  have hfind : db.episodes.find? (fun e => e.id == eid) = some ep := h
  simp only [update_episode_status, get_episode, hfind, hmap]
  simp

/-- Full behaviour of `update_episode_audio_path` on an existing episode. -/
theorem update_audio_found_spec (db : Db) (eid : Nat) (p : String)
    (ep : Episode) (h : get_episode db eid = some ep) :
    (update_episode_audio_path db eid p).1 = some { ep with audio_path := some p } ∧
    get_episode (update_episode_audio_path db eid p).2 eid =
      some { ep with audio_path := some p } ∧
    (update_episode_audio_path db eid p).2.analyses = db.analyses := by
  have hmap := find?_map_update db.episodes eid
    (fun e => { e with audio_path := some p }) (fun _ => rfl)
  have hfind : db.episodes.find? (fun e => e.id == eid) = some ep := h
  simp only [update_episode_audio_path, get_episode, hfind, hmap]
  simp

/-- A list of analysis kinds has as many distinct members as the enum has
members exactly when every kind occurs in it. -/
theorem dedup_length_eq_all_iff (l : List AnalysisType) :
    l.dedup.length = AnalysisType.all.length ↔ ∀ t : AnalysisType, t ∈ l := by
  rw [← List.card_toFinset]
  have hall : AnalysisType.all.length = Fintype.card AnalysisType := by decide
  rw [hall, Finset.card_eq_iff_eq_univ, Finset.eq_univ_iff_forall]
  simp

/-- Unfolding equation for `create_analysis`. -/
theorem create_analysis_eq (db : Db) (eid : Nat) (txt : String) (k : AnalysisType) :
    create_analysis db eid txt k =
      (let a : Analysis := { id := db.analyses.length, episode_id := eid,
                             analysis_type := k, result_text := txt }
       let db1 : Db := { db with analyses := db.analyses ++ [a] }
       (a, if (((get_episode_analyses db1 eid).map (·.analysis_type)).dedup).length
              = AnalysisType.all.length
           then (update_episode_status db1 eid .COMPLETED).2 else db1)) := rfl

/-- A one-episode store used to instantiate the repository theorems on
concrete data. -/
def cxDb0 : Db :=
  (create_episode { episodes := [], analyses := [] } "url" "pod" "title").2

/-- The row `create_episode` inserted into `cxDb0`. -/
def cxEp0 : Episode :=
  { id := 0, rss_url := "url", podcast_name := "pod", episode_title := "title",
    audio_path := none, status := .PENDING }

/-- C1: after `create_analysis`, the episode's status field is COMPLETED
exactly when every defined analysis kind occurs among the episode's analyses
as re-read after the write; when some kind is missing the status is whatever
it was before the call. -/
theorem create_analysis_completion (db : Db) (eid : Nat) (txt : String)
    (k : AnalysisType) (ep : Episode) (h : get_episode db eid = some ep) :
    get_episode (create_analysis db eid txt k).2 eid =
      some { ep with status :=
        if (∀ t : AnalysisType,
            t ∈ (get_episode_analyses (create_analysis db eid txt k).2 eid).map
                  (·.analysis_type))
        then ProcessingStatus.COMPLETED else ep.status } := by
  have h1 : get_episode { db with analyses := db.analyses ++
      [{ id := db.analyses.length, episode_id := eid, analysis_type := k,
         result_text := txt }] } eid = some ep := h
  obtain ⟨hu1, hu2, hu3⟩ := update_status_found_spec _ eid .COMPLETED ep h1
  rw [create_analysis_eq]
  simp only []
  by_cases hc : ((((get_episode_analyses { db with analyses := db.analyses ++
      [{ id := db.analyses.length, episode_id := eid, analysis_type := k,
         result_text := txt }] } eid).map (·.analysis_type)).dedup).length
      = AnalysisType.all.length)
  · simp only [if_pos hc]
    have hana : get_episode_analyses
        (update_episode_status { db with analyses := db.analyses ++
          [{ id := db.analyses.length, episode_id := eid, analysis_type := k,
             result_text := txt }] } eid .COMPLETED).2 eid =
        get_episode_analyses { db with analyses := db.analyses ++
          [{ id := db.analyses.length, episode_id := eid, analysis_type := k,
             result_text := txt }] } eid := by
      unfold get_episode_analyses
      rw [hu3]
    rw [hana]
    simp only [if_pos ((dedup_length_eq_all_iff _).mp hc)]
    exact hu2
  · simp only [if_neg hc]
    simp only [if_neg (fun hall => hc ((dedup_length_eq_all_iff _).mpr hall))]
    simpa using h1

/-- C1 witness: concrete instantiation on a one-episode store. -/
theorem create_analysis_completion_witness :
    get_episode (create_analysis cxDb0 0 "text" .BRIEF).2 0 =
      some { cxEp0 with status :=
        if (∀ t : AnalysisType,
            t ∈ (get_episode_analyses (create_analysis cxDb0 0 "text" .BRIEF).2 0).map
                  (·.analysis_type))
        then ProcessingStatus.COMPLETED else cxEp0.status } :=
  create_analysis_completion cxDb0 0 "text" .BRIEF cxEp0 (by decide)

/-- The store after forcing the single episode of `cxDb0` to COMPLETED. -/
def c2db1 : Db := (update_episode_status cxDb0 0 .COMPLETED).2

/-- The store after then requesting the status PENDING for the same episode. -/
def c2db2 : Db := (update_episode_status c2db1 0 .PENDING).2

/-- C2 counterexample: the repository operation sequence create, update to
COMPLETED, update to PENDING moves the episode's status backwards along the
chain and out of the terminal COMPLETED state (and not to FAILED), refuting
the claim for arbitrary sequences of repository operations. -/
theorem status_backward_move_counterexample :
    (get_episode c2db1 0).map Episode.status = some .COMPLETED ∧
    (get_episode c2db2 0).map Episode.status = some .PENDING ∧
    statusRank .PENDING < statusRank .COMPLETED ∧
    ProcessingStatus.PENDING ≠ ProcessingStatus.FAILED := by decide

/-- C2 amended: the repository enforces no transition order — on an existing
episode `update_episode_status` persists exactly the requested status whatever
the current status is (so forward-only progression is a caller-side
convention, not a repository guarantee). -/
theorem update_episode_status_exact_write (db : Db) (eid : Nat)
    (s : ProcessingStatus) (ep : Episode) (h : get_episode db eid = some ep) :
    (update_episode_status db eid s).1 = some { ep with status := s } ∧
    get_episode (update_episode_status db eid s).2 eid =
      some { ep with status := s } := by
  obtain ⟨h1, h2, _⟩ := update_status_found_spec db eid s ep h
  exact ⟨h1, h2⟩

/-- C2 amended witness: a COMPLETED episode is moved back to PENDING. -/
theorem update_episode_status_exact_write_witness :
    (update_episode_status c2db1 0 .PENDING).1 =
      some { cxEp0 with status := .PENDING } :=
  (update_episode_status_exact_write c2db1 0 .PENDING
    { cxEp0 with status := .COMPLETED } (by decide)).1

/-- C6: on an unknown episode id both updaters return None and leave the
store untouched; on an existing id they persist the new value and return the
refreshed record. -/
theorem update_unknown_id_contract (db : Db) (eid : Nat)
    (s : ProcessingStatus) (p : String) :
    (get_episode db eid = none →
      update_episode_status db eid s = (none, db) ∧
      update_episode_audio_path db eid p = (none, db)) ∧
    (∀ ep, get_episode db eid = some ep →
      (update_episode_status db eid s).1 = some { ep with status := s } ∧
      get_episode (update_episode_status db eid s).2 eid =
        some { ep with status := s } ∧
      (update_episode_audio_path db eid p).1 =
        some { ep with audio_path := some p } ∧
      get_episode (update_episode_audio_path db eid p).2 eid =
        some { ep with audio_path := some p }) := by
  constructor
  · intro hnone
    constructor
    · simp only [update_episode_status, hnone]
    · simp only [update_episode_audio_path, hnone]
  · intro ep hsome
    obtain ⟨hs1, hs2, _⟩ := update_status_found_spec db eid s ep hsome
    obtain ⟨ha1, ha2, _⟩ := update_audio_found_spec db eid p ep hsome
    exact ⟨hs1, hs2, ha1, ha2⟩

/-- C6 witness: unknown id 5 is a no-op returning None; known id 0 is
persisted and returned. -/
theorem update_unknown_id_contract_witness :
    update_episode_status cxDb0 5 .FAILED = (none, cxDb0) ∧
    (update_episode_status cxDb0 0 .DOWNLOADING).1 =
      some { cxEp0 with status := .DOWNLOADING } ∧
    (update_episode_audio_path cxDb0 0 "a.mp3").1 =
      some { cxEp0 with audio_path := some "a.mp3" } :=
  ⟨((update_unknown_id_contract cxDb0 5 .FAILED "x").1 (by decide)).1,
   (((update_unknown_id_contract cxDb0 0 .DOWNLOADING "a.mp3").2 cxEp0 (by decide))).1,
   (((update_unknown_id_contract cxDb0 0 .DOWNLOADING "a.mp3").2 cxEp0 (by decide))).2.2.1⟩

/-! ## Helper lemmas: character lists -/

/-- Two appends with distinct heads (within the first `n` characters) are
never equal. -/
theorem append_ne_of_take_ne (a b : List Char) (n : Nat) (ha : n ≤ a.length)
    (hb : n ≤ b.length) (hne : a.take n ≠ b.take n) :
    ∀ t₁ t₂, a ++ t₁ ≠ b ++ t₂ := by
  intro t₁ t₂ h
  apply hne
  have h' := congrArg (List.take n) h
  rwa [List.take_append_of_le_length ha, List.take_append_of_le_length hb] at h'

/-- Dropped elements form the front of the list: what remains is a suffix of the input. -/
theorem dropWhile_is_suffix (p : Char → Bool) (l : List Char) :
    ∃ s, s ++ l.dropWhile p = l := by
  induction l with
  | nil => exact ⟨[], rfl⟩
  | cons a t ih =>
    by_cases hp : p a
    · obtain ⟨s, hs⟩ := ih
      refine ⟨a :: s, ?_⟩
      rw [List.dropWhile_cons_of_pos hp, List.cons_append, hs]
    · exact ⟨[], by rw [List.dropWhile_cons_of_neg hp, List.nil_append]⟩

/-- The head of a `dropWhile` result never satisfies the dropped predicate. -/
theorem head?_dropWhile_false (p : Char → Bool) (l : List Char) :
    ∀ c, (l.dropWhile p).head? = some c → p c = false := by
  induction l with
  | nil => intro c h; simp at h
  | cons a t ih =>
    intro c h
    by_cases hp : p a
    · rw [List.dropWhile_cons_of_pos hp] at h
      exact ih c h
    · rw [List.dropWhile_cons_of_neg hp] at h
      simp only [List.head?_cons, Option.some_inj] at h
      subst h
      simpa using hp

/-- A `dropWhile` is the identity when the head already fails the predicate. -/
theorem dropWhile_eq_self_of_head (p : Char → Bool) (l : List Char)
    (h : ∀ c, l.head? = some c → p c = false) : l.dropWhile p = l := by
  cases l with
  | nil => rfl
  | cons a t =>
    rw [List.dropWhile_cons_of_neg]
    simp [h a rfl]

/-- The head of the stripped list never satisfies the strip predicate. -/
theorem stripDotSpace_head (l : List Char) :
    ∀ c, (stripDotSpace l).head? = some c → isDotSpace c = false := by
  intro c hc
  obtain ⟨s, hs⟩ :=
    dropWhile_is_suffix isDotSpace (l.dropWhile isDotSpace).reverse
  have hpre : stripDotSpace l ++ s.reverse = l.dropWhile isDotSpace := by
    have := congrArg List.reverse hs
    rwa [List.reverse_append, List.reverse_reverse] at this
  have hhead : (l.dropWhile isDotSpace).head? = some c := by
    rw [← hpre]
    cases hstrip : stripDotSpace l with
    | nil => rw [hstrip] at hc; simp at hc
    | cons x xs =>
      rw [hstrip] at hc
      simp only [List.head?_cons, Option.some_inj] at hc
      subst hc
      rfl
  exact head?_dropWhile_false isDotSpace l c hhead

/-- The last character of the stripped list never satisfies the strip
predicate. -/
theorem stripDotSpace_getLast (l : List Char) :
    ∀ c, (stripDotSpace l).getLast? = some c → isDotSpace c = false := by
  intro c hc
  unfold stripDotSpace at hc
  rw [List.getLast?_reverse] at hc
  exact head?_dropWhile_false isDotSpace (l.dropWhile isDotSpace).reverse c hc

/-- Stripping twice is the same as stripping once. -/
theorem stripDotSpace_idem (l : List Char) :
    stripDotSpace (stripDotSpace l) = stripDotSpace l := by
  have h1 : (stripDotSpace l).dropWhile isDotSpace = stripDotSpace l :=
    dropWhile_eq_self_of_head _ _ (fun c hc =>
      (stripDotSpace_head l c hc))
  have h2 : (stripDotSpace l).reverse.dropWhile isDotSpace =
      (stripDotSpace l).reverse :=
    dropWhile_eq_self_of_head _ _ (fun c hc => by
      rw [List.head?_reverse] at hc
      exact stripDotSpace_getLast l c hc)
  show ((((stripDotSpace l).dropWhile isDotSpace).reverse.dropWhile
      isDotSpace)).reverse = stripDotSpace l
  rw [h1, h2, List.reverse_reverse]

/-- Every character of the stripped list occurs in the input. -/
theorem mem_of_mem_stripDotSpace (l : List Char) (c : Char)
    (h : c ∈ stripDotSpace l) : c ∈ l := by
  obtain ⟨s1, hs1⟩ := dropWhile_is_suffix isDotSpace l
  obtain ⟨s2, hs2⟩ :=
    dropWhile_is_suffix isDotSpace (l.dropWhile isDotSpace).reverse
  have hpre : stripDotSpace l ++ s2.reverse = l.dropWhile isDotSpace := by
    have := congrArg List.reverse hs2
    rwa [List.reverse_append, List.reverse_reverse] at this
  have h1 : c ∈ l.dropWhile isDotSpace := by
    rw [← hpre]
    exact List.mem_append_left _ h
  rw [← hs1]
  exact List.mem_append_right _ h1

/-- The folded per-character replacement loop equals a single simultaneous
replacement, as long as the replacement character is not itself in the
replaced set. -/
theorem foldl_replace_eq_map (cs : List Char) (hcs : '_' ∉ cs) (l : List Char) :
    cs.foldl (fun f c => f.map (fun x => if x = c then '_' else x)) l =
      l.map (fun x => if x ∈ cs then '_' else x) := by
  induction cs generalizing l with
  | nil => simp
  | cons c cs ih =>
    have hu : '_' ∉ cs := fun h => hcs (List.mem_cons_of_mem _ h)
    have hfun : ((fun x => if x ∈ cs then '_' else x) ∘
        (fun x => if x = c then '_' else x)) =
        fun x => if x ∈ c :: cs then '_' else x := by
      funext x
      by_cases hx : x = c
      · subst hx
        simp [hu, List.mem_cons]
      · simp [hx, List.mem_cons]
    rw [List.foldl_cons, ih hu, List.map_map, hfun]

/-- Simultaneous replacement output avoids the replaced set. -/
theorem map_replace_no_invalid (l : List Char) :
    ∀ x ∈ l.map (fun x => if x ∈ invalid_chars then '_' else x),
      x ∉ invalid_chars := by
  intro x hx
  obtain ⟨y, _, rfl⟩ := List.mem_map.mp hx
  by_cases h : y ∈ invalid_chars
  · simpa [h] using (by decide : ('_' : Char) ∉ invalid_chars)
  · simp [h]

/-- Simultaneous replacement is the identity on clean inputs. -/
theorem map_replace_eq_self (l : List Char)
    (h : ∀ x ∈ l, x ∉ invalid_chars) :
    l.map (fun x => if x ∈ invalid_chars then '_' else x) = l := by
  induction l with
  | nil => rfl
  | cons a t ih =>
    rw [List.map_cons, if_neg (h a (List.mem_cons_self a t)),
      ih (fun x hx => h x (List.mem_cons_of_mem a hx))]

/-- `sanitize_filename` as strip-after-simultaneous-replacement. -/
theorem sanitize_filename_eq (l : List Char) :
    sanitize_filename l =
      stripDotSpace (l.map (fun x => if x ∈ invalid_chars then '_' else x)) := by
  unfold sanitize_filename
  rw [foldl_replace_eq_map invalid_chars (by decide) l]

/-- C4: `sanitize_filename` is idempotent, its output contains no character
from the invalid set, and it neither starts nor ends with a dot or a space. -/
theorem sanitize_filename_idem_and_clean (s : List Char) :
    sanitize_filename (sanitize_filename s) = sanitize_filename s ∧
    (∀ c ∈ sanitize_filename s, c ∉ invalid_chars) ∧
    (∀ c, (sanitize_filename s).head? = some c → c ≠ '.' ∧ c ≠ ' ') ∧
    (∀ c, (sanitize_filename s).getLast? = some c → c ≠ '.' ∧ c ≠ ' ') := by
  have hclean : ∀ c ∈ sanitize_filename s, c ∉ invalid_chars := by
    intro c hc
    rw [sanitize_filename_eq] at hc
    exact map_replace_no_invalid s c (mem_of_mem_stripDotSpace _ c hc)
  refine ⟨?_, hclean, ?_, ?_⟩
  · rw [sanitize_filename_eq (sanitize_filename s),
      map_replace_eq_self _ hclean, sanitize_filename_eq s,
      stripDotSpace_idem]
  · intro c hc
    have h := stripDotSpace_head _ c (by rwa [sanitize_filename_eq s] at hc)
    simpa [isDotSpace] using h
  · intro c hc
    have h := stripDotSpace_getLast _ c (by rwa [sanitize_filename_eq s] at hc)
    simpa [isDotSpace] using h

/-- C4 witness: concrete instantiation on the name `" .a<b>. "`. -/
theorem sanitize_filename_idem_and_clean_witness :
    sanitize_filename (sanitize_filename " .a<b>. ".toList) =
        sanitize_filename " .a<b>. ".toList ∧
    'a' ∉ invalid_chars ∧
    ('a' ≠ '.' ∧ 'a' ≠ ' ') ∧
    ('_' ≠ '.' ∧ '_' ≠ ' ') :=
  ⟨(sanitize_filename_idem_and_clean " .a<b>. ".toList).1,
   (sanitize_filename_idem_and_clean " .a<b>. ".toList).2.1 'a' (by decide),
   (sanitize_filename_idem_and_clean " .a<b>. ".toList).2.2.1 'a' (by decide),
   (sanitize_filename_idem_and_clean " .a<b>. ".toList).2.2.2 '_' (by decide)⟩

/-- C5: the end-to-end filename scenario — entry titled `Episode: A/B Test?`
published 2024-03-05 yields the base filename
`2024-03-05_Episode_ A_B Test_.mp3` under the output directory. -/
theorem create_filename_scenario :
    create_filename
        { title := "Episode: A/B Test?".toList,
          published_parsed := some (2024, 3, 5) }
        "downloads".toList "1970-01-01".toList =
      "downloads".toList ++ '/' :: "2024-03-05_Episode_ A_B Test_.mp3".toList := by
  decide

/-! ## Concrete audio environments for instantiations -/

/-- An environment in which every audio-library call succeeds. -/
def sampleAudioOkEnv : AudioEnv :=
  { from_file := fun _ => .ok { channels := 2, frame_rate := 44100 }
    set_channels := fun a n => .ok { a with channels := n }
    set_frame_rate := fun a n => .ok { a with frame_rate := n }
    export_audio := fun _ _ => .ok ()
    tmp_name := "/tmp/out.mp3".toList }

/-- An environment whose decode step fails. -/
def decodeFailEnv : AudioEnv :=
  { sampleAudioOkEnv with from_file := fun _ => .error "boom".toList }

/-- An environment whose export (re-encode) step fails. -/
def exportFailEnv : AudioEnv :=
  { sampleAudioOkEnv with export_audio := fun _ _ => .error "boom".toList }

/-- C7: transcoding a nonexistent path raises `FileNotFoundError` with the
documented message and leaves the filesystem untouched — in particular no
temporary file has been created. -/
theorem transform_audio_not_found (env : AudioEnv) (fs : List (List Char))
    (audio_path : List Char) (h : audio_path ∉ fs) :
    transform_audio env fs audio_path =
      (.error (.fileNotFoundError
        ("Audio file not found: ".toList ++ audio_path)), fs) := by
  unfold transform_audio
  rw [if_neg h]

/-- C7 witness: concrete missing path against a concrete environment. -/
theorem transform_audio_not_found_witness :
    transform_audio sampleAudioOkEnv ["a.mp3".toList] "b.mp3".toList =
      (.error (.fileNotFoundError
        ("Audio file not found: ".toList ++ "b.mp3".toList)),
       ["a.mp3".toList]) :=
  transform_audio_not_found sampleAudioOkEnv ["a.mp3".toList] "b.mp3".toList
    (by decide)

/-- C9 counterexample: a decode failure and a re-encode failure both surface
as the same generic Python `Exception` class — there is no `DecodeError`
kind distinct from a `TranscodeError` kind. -/
theorem transform_audio_error_kinds_counterexample :
    (transform_audio decodeFailEnv ["a.mp3".toList] "a.mp3".toList).1 =
        .error (.exception ("Failed to load audio file: boom".toList)) ∧
    (transform_audio exportFailEnv ["a.mp3".toList] "a.mp3".toList).1 =
        .error (.exception ("Failed to export compressed audio: boom".toList)) ∧
    pyErrClass (.exception ("Failed to load audio file: boom".toList)) =
      pyErrClass (.exception ("Failed to export compressed audio: boom".toList)) :=
  ⟨rfl, rfl, rfl⟩

/-- C9 amended: after the existence check, every audio-processing failure is
raised as the generic `Exception` class; decode failures, conversion failures
and re-encode failures are distinguishable only by their message, which
starts with `Failed to load audio file: `, `Failed to process audio: ` or
`Failed to export compressed audio: ` respectively, and no two of these
marked messages coincide. -/
theorem transform_audio_failure_marks (env : AudioEnv) (fs : List (List Char))
    (path : List Char) (h : path ∈ fs) :
    (∀ e, env.from_file path = .error e →
      (transform_audio env fs path).1 =
        .error (.exception (failedLoadMsg ++ e))) ∧
    (∀ a e, env.from_file path = .ok a → env.set_channels a 1 = .error e →
      (transform_audio env fs path).1 =
        .error (.exception (failedProcessMsg ++ e))) ∧
    (∀ a b e, env.from_file path = .ok a → env.set_channels a 1 = .ok b →
      env.set_frame_rate b 16000 = .error e →
      (transform_audio env fs path).1 =
        .error (.exception (failedProcessMsg ++ e))) ∧
    (∀ a b c e, env.from_file path = .ok a → env.set_channels a 1 = .ok b →
      env.set_frame_rate b 16000 = .ok c →
      env.export_audio c env.tmp_name = .error e →
      (transform_audio env fs path).1 =
        .error (.exception (failedExportMsg ++ e))) ∧
    (∀ e₁ e₂, failedLoadMsg ++ e₁ ≠ failedProcessMsg ++ e₂) ∧
    (∀ e₁ e₂, failedLoadMsg ++ e₁ ≠ failedExportMsg ++ e₂) ∧
    (∀ e₁ e₂, failedProcessMsg ++ e₁ ≠ failedExportMsg ++ e₂) := by
  refine ⟨?_, ?_, ?_, ?_,
    append_ne_of_take_ne _ _ 11 (by decide) (by decide) (by decide),
    append_ne_of_take_ne _ _ 11 (by decide) (by decide) (by decide),
    append_ne_of_take_ne _ _ 11 (by decide) (by decide) (by decide)⟩
  · intro e he
    simp only [transform_audio, if_pos h, he]
  · intro a e hf hc
    simp only [transform_audio, if_pos h, hf, hc]
  · intro a b e hf hc hr
    simp only [transform_audio, if_pos h, hf, hc, hr]
  · intro a b c e hf hc hr hx
    simp only [transform_audio, if_pos h, hf, hc, hr, hx]

/-- C9 amended witness: concrete decode failure, and concrete separation of
the load and process markers. -/
theorem transform_audio_failure_marks_witness :
    (transform_audio decodeFailEnv ["a.mp3".toList] "a.mp3".toList).1 =
        .error (.exception (failedLoadMsg ++ "boom".toList)) ∧
    failedLoadMsg ++ "x".toList ≠ failedProcessMsg ++ "x".toList :=
  ⟨(transform_audio_failure_marks decodeFailEnv ["a.mp3".toList]
      "a.mp3".toList (by decide)).1 "boom".toList rfl,
   (transform_audio_failure_marks decodeFailEnv ["a.mp3".toList]
      "a.mp3".toList (by decide)).2.2.2.2.1 "x".toList "x".toList⟩

/-- C3 counterexample: when the export step fails (a step after the temporary
transcoded file has been created), `analyze_audio_detailed` does return an
Error-marked string, but the temporary file is NOT deleted — it is still on
the filesystem when the function returns. -/
theorem analyze_audio_detailed_leak_counterexample :
    (analyze_audio_detailed exportFailEnv (.ok "fine".toList)
        ["a.mp3".toList] "a.mp3".toList).1 =
      detailedErrorTag ++ (failedExportMsg ++ "boom".toList) ∧
    exportFailEnv.tmp_name ∈
      (analyze_audio_detailed exportFailEnv (.ok "fine".toList)
        ["a.mp3".toList] "a.mp3".toList).2 := by
  decide

/-- C3 amended: when `transform_audio` has returned the temporary path, the
subsequent oracle failure yields a string starting with the marker `Error`
rather than raising, and the temporary file is deleted before returning on
both the failure and the success path.  (When the failure happens inside
`transform_audio` itself — e.g. during export, after the temporary file was
created — the Error string is still returned but the temporary file is not
deleted.) -/
theorem analyze_audio_detailed_cleanup (env : AudioEnv)
    (oracle : Except (List Char) (List Char)) (fs : List (List Char))
    (audio_path tmp : List Char) (fs1 : List (List Char))
    (h : transform_audio env fs audio_path = (.ok tmp, fs1)) :
    (∀ e, oracle = .error e →
      (analyze_audio_detailed env oracle fs audio_path).1 =
        detailedErrorTag ++ e ∧
      "Error".toList <+: (analyze_audio_detailed env oracle fs audio_path).1 ∧
      tmp ∉ (analyze_audio_detailed env oracle fs audio_path).2) ∧
    (∀ text, oracle = .ok text →
      (analyze_audio_detailed env oracle fs audio_path).1 = text ∧
      tmp ∉ (analyze_audio_detailed env oracle fs audio_path).2) := by
  have htag : "Error".toList ++ " in detailed analysis: ".toList =
      detailedErrorTag := by decide
  have hmem : tmp ∉ fs1.filter (fun p => p ≠ tmp) := by
    intro hx
    have h' := List.of_mem_filter hx
    simp at h'
  constructor
  · rintro e rfl
    refine ⟨?_, ?_, ?_⟩
    · simp only [analyze_audio_detailed, h]
    · simp only [analyze_audio_detailed, h]
      exact ⟨" in detailed analysis: ".toList ++ e,
        by rw [← List.append_assoc, htag]⟩
    · simp only [analyze_audio_detailed, h]
      exact hmem
  · rintro text rfl
    refine ⟨?_, ?_⟩
    · simp only [analyze_audio_detailed, h]
    · simp only [analyze_audio_detailed, h]
      exact hmem

/-- C3 amended witness: with a successful transcode and a failing oracle, the
result carries the Error marker and the temporary file is gone; with a
successful oracle the temporary file is gone too. -/
theorem analyze_audio_detailed_cleanup_witness :
    (analyze_audio_detailed sampleAudioOkEnv (.error "quota".toList)
        ["a.mp3".toList] "a.mp3".toList).1 =
      detailedErrorTag ++ "quota".toList ∧
    "/tmp/out.mp3".toList ∉
      (analyze_audio_detailed sampleAudioOkEnv (.error "quota".toList)
        ["a.mp3".toList] "a.mp3".toList).2 ∧
    "/tmp/out.mp3".toList ∉
      (analyze_audio_detailed sampleAudioOkEnv (.ok "fine".toList)
        ["a.mp3".toList] "a.mp3".toList).2 :=
  ⟨((analyze_audio_detailed_cleanup sampleAudioOkEnv (.error "quota".toList)
      ["a.mp3".toList] "a.mp3".toList "/tmp/out.mp3".toList
      ["a.mp3".toList, "/tmp/out.mp3".toList] rfl).1
        "quota".toList rfl).1,
   ((analyze_audio_detailed_cleanup sampleAudioOkEnv (.error "quota".toList)
      ["a.mp3".toList] "a.mp3".toList "/tmp/out.mp3".toList
      ["a.mp3".toList, "/tmp/out.mp3".toList] rfl).1
        "quota".toList rfl).2.2,
   ((analyze_audio_detailed_cleanup sampleAudioOkEnv (.ok "fine".toList)
      ["a.mp3".toList] "a.mp3".toList "/tmp/out.mp3".toList
      ["a.mp3".toList, "/tmp/out.mp3".toList] rfl).2
        "fine".toList rfl).2⟩

/-- The combined-input accumulation flattens to the header followed by the
blocks in order. -/
theorem foldl_append_blocks (init : List Char)
    (pairs : List ((List Char) × (List Char))) :
    pairs.foldl (fun acc p => acc ++ newsletter_block p) init =
      init ++ (pairs.map newsletter_block).flatten := by
  induction pairs generalizing init with
  | nil => simp
  | cons p t ih => simp [ih, List.append_assoc]

/-- C8: the combined prompt input enumerates exactly the provided
(name, analysis) pairs, in insertion order, one separator-delimited block per
pair after the fixed header — and therefore contains each provided pair's
block as a contiguous segment. -/
theorem build_combined_input_spec (pairs : List ((List Char) × (List Char))) :
    build_combined_input pairs =
      combined_input_header ++ (pairs.map newsletter_block).flatten ∧
    ∀ p ∈ pairs, newsletter_block p <:+: build_combined_input pairs := by
  constructor
  · exact foldl_append_blocks combined_input_header pairs
  · intro p hp
    obtain ⟨s, t, rfl⟩ := List.append_of_mem hp
    refine ⟨combined_input_header ++ (s.map newsletter_block).flatten,
      (t.map newsletter_block).flatten, ?_⟩
    unfold build_combined_input
    rw [foldl_append_blocks]
    simp [List.append_assoc]

/-- C8 witness: the two-show scenario — each show's block is a contiguous
segment of the combined input. -/
theorem build_combined_input_spec_witness :
    newsletter_block ("Show A".toList, "TLDR: a".toList) <:+:
      build_combined_input
        [("Show A".toList, "TLDR: a".toList),
         ("Show B".toList, "TLDR: b".toList)] ∧
    newsletter_block ("Show B".toList, "TLDR: b".toList) <:+:
      build_combined_input
        [("Show A".toList, "TLDR: a".toList),
         ("Show B".toList, "TLDR: b".toList)] :=
  ⟨(build_combined_input_spec
      [("Show A".toList, "TLDR: a".toList),
       ("Show B".toList, "TLDR: b".toList)]).2 _ (by decide),
   (build_combined_input_spec
      [("Show A".toList, "TLDR: a".toList),
       ("Show B".toList, "TLDR: b".toList)]).2 _ (by decide)⟩

/-- C10: `analyze_podcast` on a nonexistent path returns (rather than
raising, so no task-queue retry happens) the string
`Audio file not found: <path>`, and that string does not start with the
`Error` marker that `download_and_analyze_episode` uses to recognize
failures. -/
theorem analyze_podcast_missing_file (fs : List (List Char))
    (analyzer_run : List Char → Except (List Char) (List Char))
    (audio_path : List Char) (h : audio_path ∉ fs) :
    analyze_podcast fs analyzer_run audio_path =
      .ok ("Audio file not found: ".toList ++ audio_path) ∧
    ¬ "Error".toList <+: ("Audio file not found: ".toList ++ audio_path) := by
  constructor
  · unfold analyze_podcast
    rw [if_neg h]
  · rintro ⟨t, ht⟩
    exact append_ne_of_take_ne "Error".toList "Audio file not found: ".toList
      1 (by decide) (by decide) (by decide) t audio_path ht

/-- C10 witness: concrete missing path. -/
theorem analyze_podcast_missing_file_witness :
    analyze_podcast [] (fun _ => .ok "ignored".toList) "x.mp3".toList =
      .ok ("Audio file not found: ".toList ++ "x.mp3".toList) ∧
    ¬ "Error".toList <+: ("Audio file not found: ".toList ++ "x.mp3".toList) :=
  analyze_podcast_missing_file [] (fun _ => .ok "ignored".toList)
    "x.mp3".toList (by decide)

end PodBriefing
